import Mathlib

/-!
Shallow embedding of the script/process integration engine of the
`nominal-io/connect` repository, together with proofs about the claims
of its specification.

Conventions of the embedding:
* `f64` payload values are modelled as exact rationals (`Rat`): the code
  under verification only stores, moves and compares these values, it
  performs no floating-point arithmetic on them.
* `HashMap<String, V>` fields are modelled as total functions
  `String → V` (with the `or_default` empty value) or `String → Option V`
  for maps without a default.
* OS-level effects (killing a child process, the ZMQ socket) are outside
  the state; what the model keeps is every observable the spec talks
  about: the stream buffers, the running flag, the queued messages of the
  bounded hand-off channel, the tracked process list and the status list.
* serde deserialization of optional fields is modelled by a wire-level
  record with `Option` fields plus the defaulting conversion that serde's
  derive performs.
-/

namespace Connect

/-! ### src/executors/streaming.rs — data model -/

-- pub const MAX_FLIGHT_STREAM_POINTS: usize = 10_000;
def MAX_FLIGHT_STREAM_POINTS : Nat := 10000
-- pub const MAX_CHANNEL_STREAM_POINTS: usize = 100;
def MAX_CHANNEL_STREAM_POINTS : Nat := 100

/-- `StreamPoint`: either a 2-D plot point `Plot2D([f64;2])` or a
`FlightData([f64;6])` sample; the fixed-size arrays are flattened into
named rational components. -/
inductive StreamPoint where
  | Plot2D (x y : Rat)
  | FlightData (lat lon alt pitch roll yaw : Rat)
deriving DecidableEq

/-- `ProcessStatus` from src/executors/streaming.rs. -/
inductive ProcessStatus where
  | Running
  | Failed (code : Option Int)
  | Finished
  | Stopped
deriving DecidableEq

/-- `StreamData` after deserialization: every numeric field is concrete
(serde has already applied the `#[serde(default)]` defaulting). -/
structure StreamData where
  stream_id : String
  timestamp : Rat
  value : Rat
  rel_lat : Rat
  rel_lon : Rat
  altitude : Rat
  pitch : Rat
  roll : Rat
  yaw : Rat
deriving DecidableEq

/-- The wire-level telemetry message: `stream_id` and `timestamp` are
mandatory, every other numeric field is optional in the JSON object. -/
structure RawStreamMsg where
  stream_id : String
  timestamp : Rat
  value : Option Rat
  rel_lat : Option Rat
  rel_lon : Option Rat
  altitude : Option Rat
  pitch : Option Rat
  roll : Option Rat
  yaw : Option Rat
deriving DecidableEq

/-- serde's `#[serde(default)]` semantics on `StreamData`: each absent
optional numeric field becomes `f64::default() = 0.0`. -/
def parseStreamData (m : RawStreamMsg) : StreamData :=
  { stream_id := m.stream_id
    timestamp := m.timestamp
    value := m.value.getD 0
    rel_lat := m.rel_lat.getD 0
    rel_lon := m.rel_lon.getD 0
    altitude := m.altitude.getD 0
    pitch := m.pitch.getD 0
    roll := m.roll.getD 0
    yaw := m.yaw.getD 0 }

/-- A tracked worker process handle (`std::process::Child`); the only
observable the claims need is that the handle exists in the list. -/
structure ChildProc where
  pid : Nat
deriving DecidableEq

/-- The claim-relevant state of `StreamManager`: the stream buffer map,
the running flag, the contents of the bounded hand-off channel (oldest
message first) and the tracked process/status lists. -/
structure ManagerState where
  streams : String → List StreamPoint
  running : Bool
  queue : List StreamData
  streaming_processes : List ChildProc
  process_statuses : List ProcessStatus

/-- Point-wise update of the stream map (`streams.entry(id)` write-back). -/
def updMap (m : String → List StreamPoint) (k : String) (v : List StreamPoint) :
    String → List StreamPoint :=
  fun k' => if k' = k then v else m k'

/-- The push-then-evict pattern that `update_streams` performs in both
branches: `points.push(p); if points.len() > cap { points.remove(0); }`. -/
def pushCapped (cap : Nat) (points : List StreamPoint) (p : StreamPoint) :
    List StreamPoint :=
  let points := points ++ [p]
  if points.length > cap then points.eraseIdx 0 else points

/-- Routing of one received message inside the drain loop of
`update_streams` (src/executors/streaming.rs:269-304): a
`single_scalar_channel` message becomes a `Plot2D` point with capacity
`MAX_CHANNEL_STREAM_POINTS`; a `flight_position` message becomes a
`FlightData` sample with capacity `MAX_FLIGHT_STREAM_POINTS`; any other
stream id is logged and dropped. -/
def routeMsg (streams : String → List StreamPoint) (d : StreamData) :
    String → List StreamPoint :=
  if d.stream_id = "single_scalar_channel" then
    updMap streams d.stream_id
      (pushCapped MAX_CHANNEL_STREAM_POINTS (streams d.stream_id)
        (StreamPoint.Plot2D d.timestamp d.value))
  else if d.stream_id = "flight_position" then
    updMap streams d.stream_id
      (pushCapped MAX_FLIGHT_STREAM_POINTS (streams d.stream_id)
        (StreamPoint.FlightData d.rel_lat d.rel_lon d.altitude d.pitch d.roll d.yaw))
  else
    streams

/-- `update_streams` (the spec's `drain_and_route`): if the running flag
is false it returns immediately; otherwise it pops every currently
queued message (`while let Ok(data) = receiver.try_recv()`) and routes
each into its bucket. -/
def update_streams (s : ManagerState) : ManagerState :=
  if s.running then
    { s with streams := s.queue.foldl routeMsg s.streams, queue := [] }
  else
    s

/-- `StreamManager::start_streaming`: kill and clear the tracked worker
processes, clear the stream buffer map, set the running flag to true.
The process-status list is not touched by this function. -/
def start_streaming (s : ManagerState) : ManagerState :=
  { s with streaming_processes := []
           streams := fun _ => []
           running := true }

/-- `StreamManager::stop_streaming`: set the running flag to false, kill
and clear the tracked worker processes, overwrite every status entry
with `Stopped`, clear the stream buffer map. The hand-off channel is not
drained: `queue` is left as it was. -/
def stop_streaming (s : ManagerState) : ManagerState :=
  { s with running := false
           streaming_processes := []
           process_statuses := s.process_statuses.map (fun _ => ProcessStatus.Stopped)
           streams := fun _ => [] }

/-- The capacity invariant of the stream buffer store: the scalar bucket
holds at most 100 points and the flight bucket at most 10,000. -/
def streamsInv (streams : String → List StreamPoint) : Prop :=
  (streams "single_scalar_channel").length ≤ MAX_CHANNEL_STREAM_POINTS ∧
  (streams "flight_position").length ≤ MAX_FLIGHT_STREAM_POINTS

/-! ### src/executors/streaming.rs — check_process_status -/

/-- Outcome of `Child::try_wait()` for one tracked process: the process
exited with `code() : Option<i32>` (`none` for a signal), is still
alive, or the wait call itself returned an error. -/
inductive TryWaitResult where
  | exited (code : Option Int)
  | alive
  | waitErr
deriving DecidableEq

/-- On Unix, `ExitStatus::success()` holds exactly when the exit code is
zero; the body of the `match process.try_wait()` in
`check_process_status` (src/executors/streaming.rs:319-337). -/
def pollStatus : TryWaitResult → ProcessStatus
  | .exited code => if code = some 0 then ProcessStatus.Finished else ProcessStatus.Failed code
  | .alive => ProcessStatus.Running
  | .waitErr => ProcessStatus.Failed none

/-- `check_process_status`: iterate over the tracked processes in index
order; indices past the end of the status list are skipped
(`if i >= statuses.len() { continue; }`), statuses past the end of the
process list are left as they were. The poll outcomes of the tracked
processes are the first argument. -/
def check_process_status : List TryWaitResult → List ProcessStatus → List ProcessStatus
  | [], statuses => statuses
  | _ :: _, [] => []
  | w :: ws, _ :: ss => pollStatus w :: check_process_status ws ss

/-! ### src/types.rs — result data model -/

/-- `TableData` after deserialization (`deserialize_string_array` has
already replaced null cells). -/
structure TableData where
  columns : List String
  data : List (List String)
  error : Option String
deriving DecidableEq

/-- The wire-level table payload: the `data` grid cells are
`string | null` and `error` is optional. -/
structure RawTableData where
  columns : List String
  data : List (List (Option String))
  error : Option String
deriving DecidableEq

/-- `deserialize_string_array` (src/types.rs:138-151): every null cell
of the raw grid becomes `String::default() = ""`. -/
def deserialize_string_array (raw_data : List (List (Option String))) :
    List (List String) :=
  raw_data.map (fun row => row.map (fun cell => cell.getD ""))

/-- The serde derive for `TableData` with its custom `data` deserializer
and defaulted `error` field, applied to an already-matched payload. -/
def decodeTableData (raw : RawTableData) : TableData :=
  { columns := raw.columns
    data := deserialize_string_array raw.data
    error := raw.error }

/-- The claim-relevant fields of `AppState` (src/types.rs:163-171):
scalar results and table results are two separate maps. -/
structure AppState where
  script_results : String → Option String
  script_tables : String → Option TableData

/-- `ScriptOutputs` (src/types.rs:180-183). -/
structure ScriptOutputs where
  results : List String
deriving DecidableEq

/-! ### src/executors/discrete.rs -/

/-- The result key computed at the top of `process_script_output`:
`"{script_name}_{function_name}"` when a function was targeted, else
`"{script_name}"`. -/
def result_key (script_name : String) (function_name : Option String) : String :=
  match function_name with
  | some func_name => script_name ++ "_" ++ func_name
  | none => script_name

/-- Model of Rust's `str::trim`: drop whitespace characters from both
ends of the string. (Lean's own `String.trim` is defined by
well-founded recursion on byte positions and does not evaluate inside
the kernel, so the library behavior is modelled structurally over the
character list; the claims only involve ASCII text, on which
`Char.isWhitespace` agrees with Rust's `char::is_whitespace`.) -/
def rustTrim (s : String) : String :=
  String.mk
    (((s.data.dropWhile Char.isWhitespace).reverse.dropWhile
        Char.isWhitespace).reverse)

/-- The stdout drain loop of `spawn_and_run_script`
(src/executors/discrete.rs:69-78): `output` starts empty and is
overwritten with the trimmed text of every line in order, so the final
candidate is the trimmed last line — empty or not. -/
def collect_stdout (lines : List String) : String :=
  lines.foldl (fun _output line => rustTrim line) ""

/-- Outcome of `child.wait()`: the process exited with
`code() : Option<i32>` (`none` for a signal), or the wait call failed. -/
inductive ExitOutcome where
  | exited (code : Option Int)
  | waitFailed
deriving DecidableEq

/-- `spawn_and_run_script`, with the OS interaction abstracted to the
observed stdout lines and exit outcome: the collected stdout is returned
only when the child exited successfully; a non-zero/signal exit or a
failed wait is logged and yields `None`. -/
def spawn_and_run_script (stdoutLines : List String) (wait : ExitOutcome) :
    Option String :=
  let output := collect_stdout stdoutLines
  match wait with
  | .exited code => if code = some 0 then some output else none
  | .waitFailed => none

/-- The body of `process_script_output` (src/executors/discrete.rs:94-138).
`parsed` is the outcome of `serde_json::from_str::<TableData>(&output)`,
taken as a parameter because the JSON text parser is external library
code; the repository's own cell-defaulting (`deserialize_string_array`)
is applied by `decodeTableData`. On a parsed payload with an error the
error string is stored as a scalar result and the table is not stored;
on a parsed payload without an error the table is stored; on a parse
failure the raw output line is stored as a scalar result. The raw output
is always appended to `script_outputs.results`. -/
def process_script_output (parsed : Option RawTableData) (output : String)
    (script_name : String) (function_name : Option String)
    (app_state : AppState) (script_outputs : ScriptOutputs) :
    AppState × ScriptOutputs :=
  let key := result_key script_name function_name
  let app_state :=
    match parsed with
    | some raw =>
        let table_data := decodeTableData raw
        let has_error := table_data.error.isSome
        let app_state :=
          match table_data.error with
          | some error =>
              { app_state with
                  script_results := fun k =>
                    if k = key then some error else app_state.script_results k }
          | none => app_state
        if has_error then app_state
        else
          { app_state with
              script_tables := fun k =>
                if k = key then some { table_data with error := none }
                else app_state.script_tables k }
    | none =>
        { app_state with
            script_results := fun k =>
              if k = key then some output else app_state.script_results k }
  (app_state, { script_outputs with results := script_outputs.results ++ [output] })

/-- `execute_script`: run the worker (abstracted to its observed stdout
lines and exit outcome) and process its output only when the run
produced one; a failed run leaves the state untouched and is only
logged. `parse` is the external JSON parse of the candidate line. -/
def execute_script (stdoutLines : List String) (wait : ExitOutcome)
    (parse : String → Option RawTableData)
    (script_name : String) (function_name : Option String)
    (app_state : AppState) (script_outputs : ScriptOutputs) :
    AppState × ScriptOutputs :=
  match spawn_and_run_script stdoutLines wait with
  | some output =>
      process_script_output (parse output) output script_name function_name
        app_state script_outputs
  | none => (app_state, script_outputs)

/-! ### Concrete states used by witnesses and counterexamples -/

/-- An `AppState` with empty result maps. -/
def emptyAppState : AppState :=
  { script_results := fun _ => none, script_tables := fun _ => none }

/-- Empty `ScriptOutputs`. -/
def emptyOutputs : ScriptOutputs := { results := [] }

/-- A running manager with empty buffers, queue and process lists. -/
def baseState : ManagerState :=
  { streams := fun _ => []
    running := true
    queue := []
    streaming_processes := []
    process_statuses := [] }

/-- The spec's example wire message, already deserialized:
`\x7b"stream_id":"single_scalar_channel","timestamp":1.0,"value":2.0\x7d`. -/
def scalarMsg : StreamData :=
  { stream_id := "single_scalar_channel"
    timestamp := 1
    value := 2
    rel_lat := 0
    rel_lon := 0
    altitude := 0
    pitch := 0
    roll := 0
    yaw := 0 }

/-- A manager tracking one already-finished process. -/
def s2cx : ManagerState :=
  { baseState with
      streaming_processes := [{ pid := 7 }]
      process_statuses := [ProcessStatus.Finished] }

/-- A running manager with one message queued in the hand-off channel. -/
def s3cx : ManagerState := { baseState with queue := [scalarMsg] }

/-- A stopped manager with one message queued in the hand-off channel. -/
def stoppedState : ManagerState :=
  { baseState with running := false, queue := [scalarMsg] }

/-- A running manager whose queue holds 101 scalar messages. -/
def c1State : ManagerState :=
  { baseState with queue := List.replicate 101 scalarMsg }

/-- The spec's example wire message before deserialization: only
`stream_id`, `timestamp` and `value` are present. -/
def rawScalarMsg : RawStreamMsg :=
  { stream_id := "single_scalar_channel"
    timestamp := 1
    value := some 2
    rel_lat := none
    rel_lon := none
    altitude := none
    pitch := none
    roll := none
    yaw := none }

/-- A running manager with the spec's example message queued. -/
def c9State : ManagerState :=
  { baseState with queue := [parseStreamData rawScalarMsg] }

/-- Poll outcomes for four tracked processes: exited cleanly, exited
with code 3, still alive, wait error. -/
def procWaits : List TryWaitResult :=
  [TryWaitResult.exited (some 0), TryWaitResult.exited (some 3),
   TryWaitResult.alive, TryWaitResult.waitErr]

/-- Five status entries; the fifth has no corresponding process. -/
def procStatuses : List ProcessStatus :=
  [ProcessStatus.Running, ProcessStatus.Running, ProcessStatus.Running,
   ProcessStatus.Running, ProcessStatus.Stopped]

/-- The spec's example table payload carrying an error. -/
def rawBoom : RawTableData :=
  { columns := ["a", "b"], data := [[some "1", some "2"]], error := some "boom" }

/-- The spec's example table payload without an error. -/
def rawOk : RawTableData :=
  { columns := ["a", "b"], data := [[some "1", some "2"]], error := none }

/-- The decoded table the no-error payload should produce. -/
def tableOk : TableData :=
  { columns := ["a", "b"], data := [["1", "2"]], error := none }

end Connect

namespace Connect

/-! ### Helper lemmas -/

theorem pushCapped_length (cap : Nat) (l : List StreamPoint) (p : StreamPoint)
    (h : l.length ≤ cap) : (pushCapped cap l p).length ≤ cap := by
  simp only [pushCapped]
  split
  · simp only [List.eraseIdx_zero, List.length_tail, List.length_append,
      List.length_cons, List.length_nil]
    omega
  · next hc =>
    simp only [List.length_append, List.length_cons, List.length_nil] at hc ⊢
    omega

theorem pushCapped_no_evict (cap : Nat) (l : List StreamPoint) (p : StreamPoint)
    (h : l.length + 1 ≤ cap) : pushCapped cap l p = l ++ [p] := by
  simp only [pushCapped]
  rw [if_neg]
  simp only [List.length_append, List.length_cons, List.length_nil]
  omega

theorem pushCapped_evict (cap : Nat) (l : List StreamPoint) (p : StreamPoint)
    (hcap : 0 < cap) (h : l.length = cap) :
    pushCapped cap l p = l.drop 1 ++ [p] := by
  have hl : l ≠ [] := by
    intro hnil
    rw [hnil] at h
    simp at h
    omega
  simp only [pushCapped]
  rw [if_pos (by simp only [List.length_append, List.length_cons, List.length_nil]; omega)]
  rw [List.eraseIdx_zero, List.tail_append_of_ne_nil hl, List.drop_one]

theorem pushCapped_evict_drop (cap : Nat) (l : List StreamPoint) (p : StreamPoint)
    (h : l.length = cap) : pushCapped cap l p = (l ++ [p]).drop 1 := by
  simp only [pushCapped]
  rw [if_pos (by simp only [List.length_append, List.length_cons, List.length_nil]; omega),
    List.eraseIdx_zero, List.drop_one]

theorem foldl_pushCapped (cap : Nat) (ps : List StreamPoint) :
    ∀ l : List StreamPoint, l.length ≤ cap →
      ps.foldl (pushCapped cap) l = (l ++ ps).drop (l.length + ps.length - cap) := by
  induction ps with
  | nil =>
      intro l h
      simp [Nat.sub_eq_zero_of_le h]
  | cons p ps ih =>
      intro l h
      rw [List.foldl_cons, ih (pushCapped cap l p) (pushCapped_length cap l p h)]
      by_cases hc : l.length + 1 ≤ cap
      · rw [pushCapped_no_evict cap l p hc]
        rw [List.append_assoc, List.singleton_append]
        have : (l ++ [p]).length = l.length + 1 := by simp
        rw [this]
        congr 1
        simp only [List.length_cons]
        omega
      · have hl : l.length = cap := by omega
        rw [pushCapped_evict_drop cap l p hl]
        have h1 : ((l ++ [p]).drop 1).length = cap := by
          simp only [List.length_drop, List.length_append, List.length_cons,
            List.length_nil]
          omega
        rw [h1]
        have h2 : (l ++ [p]).drop 1 ++ ps = (l ++ p :: ps).drop 1 := by
          rw [← List.drop_append_of_le_length (by simp),
            List.append_assoc, List.singleton_append]
        rw [h2, List.drop_drop]
        congr 1
        simp only [List.length_cons, hl]
        omega

theorem routeMsg_scalar_apply (streams : String → List StreamPoint) (d : StreamData)
    (hd : d.stream_id = "single_scalar_channel") :
    routeMsg streams d = updMap streams "single_scalar_channel"
      (pushCapped MAX_CHANNEL_STREAM_POINTS (streams "single_scalar_channel")
        (StreamPoint.Plot2D d.timestamp d.value)) := by
  unfold routeMsg
  rw [hd]
  simp

theorem routeMsg_inv (streams : String → List StreamPoint) (d : StreamData)
    (h : streamsInv streams) : streamsInv (routeMsg streams d) := by
  obtain ⟨h1, h2⟩ := h
  unfold routeMsg
  by_cases hd : d.stream_id = "single_scalar_channel"
  · rw [if_pos hd, hd]
    constructor
    · simpa [updMap] using pushCapped_length _ _ _ h1
    · simp only [updMap]
      rw [if_neg (by decide)]
      exact h2
  · rw [if_neg hd]
    by_cases hf : d.stream_id = "flight_position"
    · rw [if_pos hf, hf]
      constructor
      · simp only [updMap]
        rw [if_neg (by decide)]
        exact h1
      · simpa [updMap] using pushCapped_length _ _ _ h2
    · rw [if_neg hf]
      exact ⟨h1, h2⟩

theorem foldl_routeMsg_inv (msgs : List StreamData) :
    ∀ streams, streamsInv streams → streamsInv (msgs.foldl routeMsg streams) := by
  induction msgs with
  | nil => intro streams h; exact h
  | cons d msgs ih =>
      intro streams h
      exact ih _ (routeMsg_inv streams d h)

theorem foldl_routeMsg_scalar (msgs : List StreamData) :
    ∀ streams : String → List StreamPoint,
      (∀ m ∈ msgs, m.stream_id = "single_scalar_channel") →
      (msgs.foldl routeMsg streams) "single_scalar_channel"
        = msgs.foldl
            (fun l m => pushCapped MAX_CHANNEL_STREAM_POINTS l
              (StreamPoint.Plot2D m.timestamp m.value))
            (streams "single_scalar_channel") := by
  induction msgs with
  | nil => intro streams _; rfl
  | cons d msgs ih =>
      intro streams hall
      have hd := hall d (List.mem_cons_self d msgs)
      rw [List.foldl_cons, List.foldl_cons,
        routeMsg_scalar_apply streams d hd,
        ih _ (fun m hm => hall m (List.mem_cons_of_mem d hm))]
      simp [updMap]

theorem update_streams_running (s : ManagerState) (h : s.running = true) :
    update_streams s
      = { s with streams := s.queue.foldl routeMsg s.streams, queue := [] } := by
  unfold update_streams
  rw [if_pos h]

/-! ### Claim theorems -/

/-- C1: every drain keeps each bucket within its type-specific capacity
(100 for `single_scalar_channel` points, 10,000 for `flight_position`
samples); an insertion into a bucket at capacity removes exactly the
single oldest record; and after draining more than 100 scalar messages
for one stream id into an empty bucket, the buffer holds exactly the
most recent 100 records in arrival order, oldest first. -/
theorem stream_buffer_capacity_fifo
    (s : ManagerState) (msgs : List StreamData)
    (hrun : s.running = true)
    (hq : s.queue = msgs)
    (hempty : s.streams "single_scalar_channel" = [])
    (hall : ∀ m ∈ msgs, m.stream_id = "single_scalar_channel")
    (hn : 100 < msgs.length) :
    (∀ t : ManagerState, streamsInv t.streams → streamsInv (update_streams t).streams)
    ∧ (∀ (cap : Nat) (l : List StreamPoint) (p : StreamPoint),
        0 < cap → l.length = cap → pushCapped cap l p = l.drop 1 ++ [p])
    ∧ (update_streams s).streams "single_scalar_channel"
        = (msgs.map fun m => StreamPoint.Plot2D m.timestamp m.value).drop
            (msgs.length - 100)
    ∧ ((update_streams s).streams "single_scalar_channel").length = 100 := by
  have h3 : (update_streams s).streams "single_scalar_channel"
      = (msgs.map fun m => StreamPoint.Plot2D m.timestamp m.value).drop
          (msgs.length - 100) := by
    rw [update_streams_running s hrun]
    show (s.queue.foldl routeMsg s.streams) "single_scalar_channel" = _
    rw [hq, foldl_routeMsg_scalar msgs s.streams hall, hempty,
      ← List.foldl_map (fun m : StreamData => StreamPoint.Plot2D m.timestamp m.value)
        (pushCapped MAX_CHANNEL_STREAM_POINTS),
      foldl_pushCapped MAX_CHANNEL_STREAM_POINTS _ [] (by simp [MAX_CHANNEL_STREAM_POINTS])]
    simp [MAX_CHANNEL_STREAM_POINTS]
  refine ⟨?_, ?_, h3, ?_⟩
  · intro t ht
    unfold update_streams
    by_cases hr : t.running
    · rw [if_pos hr]
      exact foldl_routeMsg_inv t.queue t.streams ht
    · rw [if_neg hr]
      exact ht
  · intro cap l p hcap hlen
    exact pushCapped_evict cap l p hcap hlen
  · rw [h3]
    simp only [List.length_drop, List.length_map]
    omega

/-- C1 witness: the theorem applied to a running manager whose queue
holds 101 scalar messages. -/
theorem stream_buffer_capacity_fifo_witness :
    c1State.running = true
    ∧ c1State.queue = List.replicate 101 scalarMsg
    ∧ c1State.streams "single_scalar_channel" = []
    ∧ 100 < (List.replicate 101 scalarMsg).length
    ∧ ((update_streams c1State).streams "single_scalar_channel").length = 100 := by
  have hall : ∀ m ∈ List.replicate 101 scalarMsg,
      m.stream_id = "single_scalar_channel" := by
    intro m hm
    rw [List.eq_of_mem_replicate hm]
    rfl
  have hn : 100 < (List.replicate 101 scalarMsg).length := by
    simp
  exact ⟨rfl, rfl, rfl, hn,
    (stream_buffer_capacity_fifo c1State (List.replicate 101 scalarMsg)
      rfl rfl rfl hall hn).2.2.2⟩

/-- C2 counterexample: `start_streaming` does not clear the
process-status list — starting a manager whose status list holds a
`Finished` entry leaves that entry in place, so the list is not empty
afterwards. -/
theorem start_streaming_keeps_statuses_cx :
    (start_streaming s2cx).process_statuses = [ProcessStatus.Finished]
    ∧ ([ProcessStatus.Finished] : List ProcessStatus) ≠ [] :=
  ⟨rfl, by decide⟩

/-- C2 (amended): `start_streaming` kills and clears the tracked worker
processes, clears every stream buffer and sets the running flag to true,
but leaves the process-status list exactly as it was; `stop_streaming`
followed immediately by `start_streaming` yields empty buffers, an empty
process list, and a status list of the same length as before with every
entry overwritten to `Stopped` (marked by the stop, not cleared). -/
theorem start_streaming_resets (s : ManagerState) :
    (start_streaming s).streaming_processes = []
    ∧ (start_streaming s).streams = (fun _ => [])
    ∧ (start_streaming s).running = true
    ∧ (start_streaming s).process_statuses = s.process_statuses
    ∧ (start_streaming (stop_streaming s)).streams = (fun _ => [])
    ∧ (start_streaming (stop_streaming s)).streaming_processes = []
    ∧ (start_streaming (stop_streaming s)).running = true
    ∧ (start_streaming (stop_streaming s)).process_statuses
        = s.process_statuses.map (fun _ => ProcessStatus.Stopped) :=
  ⟨rfl, rfl, rfl, rfl, rfl, rfl, rfl, rfl⟩

/-- C2 witness: the amended theorem applied to a manager tracking one
finished process. -/
theorem start_streaming_resets_witness :
    (start_streaming s2cx).running = true
    ∧ (start_streaming s2cx).process_statuses = [ProcessStatus.Finished]
    ∧ (start_streaming (stop_streaming s2cx)).process_statuses
        = [ProcessStatus.Stopped] :=
  ⟨(start_streaming_resets s2cx).2.2.1,
   (start_streaming_resets s2cx).2.2.2.1,
   ((start_streaming_resets s2cx).2.2.2.2.2.2.2).trans rfl⟩

/-- C3 counterexample: `stop_streaming` does not drain the hand-off
channel — stopping a manager with one queued message leaves that message
queued. -/
theorem stop_streaming_no_drain_cx :
    (stop_streaming s3cx).queue = [scalarMsg]
    ∧ ([scalarMsg] : List StreamData) ≠ [] :=
  ⟨rfl, by decide⟩

/-- C3 (amended): `stop_streaming` sets the running flag to false, kills
and clears the tracked worker processes, overwrites every status entry
with `Stopped`, and clears every stream buffer; it does not drain the
hand-off channel — queued messages stay queued. -/
theorem stop_streaming_effects (s : ManagerState) :
    (stop_streaming s).running = false
    ∧ (stop_streaming s).streaming_processes = []
    ∧ (stop_streaming s).process_statuses
        = s.process_statuses.map (fun _ => ProcessStatus.Stopped)
    ∧ (stop_streaming s).streams = (fun _ => [])
    ∧ (stop_streaming s).queue = s.queue :=
  ⟨rfl, rfl, rfl, rfl, rfl⟩

/-- C3 witness: the amended theorem applied to a manager with one queued
message and one tracked process status. -/
theorem stop_streaming_effects_witness :
    (stop_streaming s2cx).running = false
    ∧ (stop_streaming s2cx).process_statuses = [ProcessStatus.Stopped]
    ∧ (stop_streaming s2cx).streaming_processes = [] :=
  ⟨(stop_streaming_effects s2cx).1,
   ((stop_streaming_effects s2cx).2.2.1).trans rfl,
   (stop_streaming_effects s2cx).2.1⟩

/-- C10: when the running flag is false, `update_streams` is a complete
no-op — the state, and in particular the queued messages of the hand-off
channel and every stream buffer, is returned unchanged. -/
theorem update_streams_noop_when_stopped (s : ManagerState)
    (h : s.running = false) :
    update_streams s = s
    ∧ (update_streams s).queue = s.queue
    ∧ (update_streams s).streams = s.streams := by
  have heq : update_streams s = s := by
    unfold update_streams
    rw [h]
    simp
  exact ⟨heq, by rw [heq], by rw [heq]⟩

/-- C10 witness: a stopped manager with a queued message is left
untouched by `update_streams`. -/
theorem update_streams_noop_when_stopped_witness :
    stoppedState.running = false ∧ update_streams stoppedState = stoppedState :=
  ⟨rfl, (update_streams_noop_when_stopped stoppedState rfl).1⟩

theorem check_process_status_getElem (ws : List TryWaitResult) :
    ∀ (ss : List ProcessStatus) (i : Nat),
      (check_process_status ws ss)[i]?
        = if i < ws.length ∧ i < ss.length
          then (ws[i]?).map pollStatus
          else ss[i]? := by
  induction ws with
  | nil =>
      intro ss i
      rw [if_neg (by simp)]
      rfl
  | cons w ws ih =>
      intro ss i
      cases ss with
      | nil =>
          rw [if_neg (by simp)]
          rfl
      | cons s ss =>
          cases i with
          | zero => simp [check_process_status]
          | succ i =>
              simp only [check_process_status, List.getElem?_cons_succ,
                List.length_cons, ih ss i]
              by_cases h : i < ws.length ∧ i < ss.length
              · rw [if_pos h, if_pos (by omega)]
              · rw [if_neg h, if_neg (by omega)]

theorem check_process_status_length (ws : List TryWaitResult) :
    ∀ ss : List ProcessStatus,
      (check_process_status ws ss).length = ss.length := by
  induction ws with
  | nil => intro ss; rfl
  | cons w ws ih =>
      intro ss
      cases ss with
      | nil => rfl
      | cons s ss => simp [check_process_status, ih]

/-- C8: one status poll walks the tracked processes in index order and,
using each process's non-blocking wait outcome, sets its entry to
`Finished` on a successful exit, `Failed(exit_code)` on a non-zero or
signal exit, `Running` while still alive, and `Failed(None)` when the
wait call itself errors; it preserves the length of the status list and
leaves entries with no corresponding process unchanged — it never
reorders or removes entries. -/
theorem check_process_status_poll
    (ws : List TryWaitResult) (ss : List ProcessStatus) :
    (check_process_status ws ss).length = ss.length
    ∧ (∀ i c, i < ss.length → ws[i]? = some (TryWaitResult.exited c) →
        c = some 0 →
        (check_process_status ws ss)[i]? = some ProcessStatus.Finished)
    ∧ (∀ i c, i < ss.length → ws[i]? = some (TryWaitResult.exited c) →
        c ≠ some 0 →
        (check_process_status ws ss)[i]? = some (ProcessStatus.Failed c))
    ∧ (∀ i, i < ss.length → ws[i]? = some TryWaitResult.alive →
        (check_process_status ws ss)[i]? = some ProcessStatus.Running)
    ∧ (∀ i, i < ss.length → ws[i]? = some TryWaitResult.waitErr →
        (check_process_status ws ss)[i]? = some (ProcessStatus.Failed none))
    ∧ (∀ i, ws.length ≤ i → (check_process_status ws ss)[i]? = ss[i]?) := by
  have hlt : ∀ {i : Nat} {w : TryWaitResult}, ws[i]? = some w → i < ws.length := by
    intro i w hw
    by_contra hge
    rw [List.getElem?_eq_none (by omega)] at hw
    cases hw
  refine ⟨check_process_status_length ws ss, ?_, ?_, ?_, ?_, ?_⟩
  · intro i c hi hw hc
    rw [check_process_status_getElem ws ss i, if_pos ⟨hlt hw, hi⟩, hw]
    simp [pollStatus, hc]
  · intro i c hi hw hc
    rw [check_process_status_getElem ws ss i, if_pos ⟨hlt hw, hi⟩, hw]
    simp [pollStatus, hc]
  · intro i hi hw
    rw [check_process_status_getElem ws ss i, if_pos ⟨hlt hw, hi⟩, hw]
    rfl
  · intro i hi hw
    rw [check_process_status_getElem ws ss i, if_pos ⟨hlt hw, hi⟩, hw]
    rfl
  · intro i hw
    rw [check_process_status_getElem ws ss i, if_neg (by omega)]

/-- C8 witness: the poll applied to four processes (clean exit, exit
code 3, alive, wait error) and five status entries. -/
theorem check_process_status_poll_witness :
    (check_process_status procWaits procStatuses).length = 5
    ∧ (check_process_status procWaits procStatuses)[0]?
        = some ProcessStatus.Finished
    ∧ (check_process_status procWaits procStatuses)[1]?
        = some (ProcessStatus.Failed (some 3))
    ∧ (check_process_status procWaits procStatuses)[2]?
        = some ProcessStatus.Running
    ∧ (check_process_status procWaits procStatuses)[3]?
        = some (ProcessStatus.Failed none)
    ∧ (check_process_status procWaits procStatuses)[4]?
        = some ProcessStatus.Stopped :=
  ⟨(check_process_status_poll procWaits procStatuses).1.trans rfl,
   (check_process_status_poll procWaits procStatuses).2.1 0 (some 0)
     (by decide) rfl rfl,
   (check_process_status_poll procWaits procStatuses).2.2.1 1 (some 3)
     (by decide) rfl (by decide),
   (check_process_status_poll procWaits procStatuses).2.2.2.1 2
     (by decide) rfl,
   (check_process_status_poll procWaits procStatuses).2.2.2.2.1 3
     (by decide) rfl,
   ((check_process_status_poll procWaits procStatuses).2.2.2.2.2 4
     (by decide)).trans rfl⟩

/-- C9: while running, draining the single queued wire message with
stream id "single_scalar_channel", timestamp 1.0 and value 2.0 appends
exactly the scalar record (1.0, 2.0) to that stream's buffer; and every
absent optional numeric field of a wire message (value, rel_lat,
rel_lon, altitude, pitch, roll, yaw) deserializes to 0.0. -/
theorem drain_single_scalar_message
    (s : ManagerState)
    (hrun : s.running = true)
    (hq : s.queue = [parseStreamData rawScalarMsg])
    (hlen : (s.streams "single_scalar_channel").length
      < MAX_CHANNEL_STREAM_POINTS) :
    (update_streams s).streams "single_scalar_channel"
      = s.streams "single_scalar_channel" ++ [StreamPoint.Plot2D 1 2]
    ∧ (∀ m : RawStreamMsg,
        (m.value = none → (parseStreamData m).value = 0)
        ∧ (m.rel_lat = none → (parseStreamData m).rel_lat = 0)
        ∧ (m.rel_lon = none → (parseStreamData m).rel_lon = 0)
        ∧ (m.altitude = none → (parseStreamData m).altitude = 0)
        ∧ (m.pitch = none → (parseStreamData m).pitch = 0)
        ∧ (m.roll = none → (parseStreamData m).roll = 0)
        ∧ (m.yaw = none → (parseStreamData m).yaw = 0)) := by
  constructor
  · rw [update_streams_running s hrun]
    show (s.queue.foldl routeMsg s.streams) "single_scalar_channel" = _
    rw [hq, List.foldl_cons, List.foldl_nil, routeMsg_scalar_apply _ _ rfl]
    show pushCapped MAX_CHANNEL_STREAM_POINTS
        (s.streams "single_scalar_channel") (StreamPoint.Plot2D 1 2) = _
    exact pushCapped_no_evict _ _ _ hlen
  · intro m
    refine ⟨?_, ?_, ?_, ?_, ?_, ?_, ?_⟩ <;>
      · intro h
        simp [parseStreamData, h]

/-- C9 witness: the theorem applied to a running manager whose queue
holds exactly the example message. -/
theorem drain_single_scalar_message_witness :
    c9State.running = true
    ∧ c9State.queue = [parseStreamData rawScalarMsg]
    ∧ (c9State.streams "single_scalar_channel").length
        < MAX_CHANNEL_STREAM_POINTS
    ∧ (update_streams c9State).streams "single_scalar_channel"
        = [StreamPoint.Plot2D 1 2] :=
  ⟨rfl, rfl, by decide,
   ((drain_single_scalar_message c9State rfl rfl (by decide)).1).trans rfl⟩

/-- C4: when the final stdout line parses as a table payload whose error
field is a non-null string, the error string is stored as a Scalar
result under the run's key and the table store is left unchanged — this
run stores no table; when the payload has no error field, a Table with
the payload's columns and rows is stored under the run's key, with every
null cell of the data grid replaced by the empty string. -/
theorem process_script_output_error_scalar_or_table
    (raw : RawTableData) (output script_name : String)
    (function_name : Option String) (st : AppState) (outs : ScriptOutputs) :
    (∀ e, raw.error = some e →
      ((process_script_output (some raw) output script_name function_name
          st outs).1.script_results (result_key script_name function_name)
          = some e
        ∧ (process_script_output (some raw) output script_name function_name
            st outs).1.script_tables = st.script_tables))
    ∧ (raw.error = none →
        (process_script_output (some raw) output script_name function_name
            st outs).1.script_tables (result_key script_name function_name)
          = some { columns := raw.columns
                   data := raw.data.map (fun row => row.map (fun cell =>
                     match cell with
                     | some str => str
                     | none => ""))
                   error := none }) := by
  constructor
  · intro e herr
    constructor
    · simp [process_script_output, decodeTableData, herr]
    · simp [process_script_output, decodeTableData, herr]
  · intro herr
    have hcell : ∀ cell : Option String,
        cell.getD "" = match cell with
                       | some str => str
                       | none => "" := by
      intro cell
      cases cell <;> rfl
    have hdata : deserialize_string_array raw.data
        = raw.data.map (fun row => row.map (fun cell =>
            match cell with
            | some str => str
            | none => "")) := by
      unfold deserialize_string_array
      simp only [hcell]
    simp [process_script_output, decodeTableData, herr, hdata]

/-- C4 witness: the spec's example payloads — with error "boom" the
store holds Scalar("boom") and no table; without an error it holds the
2-column, 1-row table. -/
theorem process_script_output_error_scalar_or_table_witness :
    (process_script_output (some rawBoom) "out" "script" none emptyAppState
        emptyOutputs).1.script_results "script" = some "boom"
    ∧ (process_script_output (some rawBoom) "out" "script" none emptyAppState
        emptyOutputs).1.script_tables "script" = none
    ∧ (process_script_output (some rawOk) "out" "script" none emptyAppState
        emptyOutputs).1.script_tables "script" = some tableOk :=
  ⟨((process_script_output_error_scalar_or_table rawBoom "out" "script" none
      emptyAppState emptyOutputs).1 "boom" rfl).1,
   (congrFun ((process_script_output_error_scalar_or_table rawBoom "out"
      "script" none emptyAppState emptyOutputs).1 "boom" rfl).2
      "script").trans rfl,
   ((process_script_output_error_scalar_or_table rawOk "out" "script" none
      emptyAppState emptyOutputs).2 rfl).trans rfl⟩

/-- C5: a worker that exits with a non-zero status, a signal, or whose
wait call fails produces no result: `execute_script` leaves the result
store and the script outputs untouched; the failure is only logged, not
surfaced. -/
theorem execute_script_failed_run_unchanged
    (lines : List String) (code : Option Int)
    (parse : String → Option RawTableData)
    (script_name : String) (function_name : Option String)
    (st : AppState) (outs : ScriptOutputs)
    (h : code ≠ some 0) :
    execute_script lines (ExitOutcome.exited code) parse script_name
        function_name st outs = (st, outs)
    ∧ execute_script lines ExitOutcome.waitFailed parse script_name
        function_name st outs = (st, outs) := by
  constructor
  · simp [execute_script, spawn_and_run_script, h]
  · rfl

/-- C5 witness: a run exiting with code 1 leaves the empty state
untouched. -/
theorem execute_script_failed_run_unchanged_witness :
    (some 1 : Option Int) ≠ some 0
    ∧ execute_script ["boom"] (ExitOutcome.exited (some 1)) (fun _ => none)
        "script" none emptyAppState emptyOutputs
        = (emptyAppState, emptyOutputs) :=
  ⟨by decide,
   (execute_script_failed_run_unchanged ["boom"] (some 1) (fun _ => none)
     "script" none emptyAppState emptyOutputs (by decide)).1⟩

/-- C6 counterexample: for stdout lines ["result", ""] the last line
whose trimmed content is non-empty is "result", but the drain loop keeps
the trimmed final line, which is empty — the candidate result is the
empty string rather than "result". -/
theorem collect_stdout_last_nonempty_cx :
    collect_stdout ["result", ""] = ""
    ∧ collect_stdout ["result", ""] ≠ "result"
    ∧ rustTrim "result" = "result"
    ∧ rustTrim "result" ≠ "" :=
  ⟨by decide, by decide, by decide, by decide⟩

/-- C6 (amended): while draining a worker's stdout the executor keeps
only the trimmed content of the final line as the candidate result (the
empty string when there are no lines), discarding all earlier lines —
even when the final line's trimmed content is empty; a successful run
returns exactly this candidate. -/
theorem collect_stdout_trimmed_last_line
    (lines : List String) (last : String) :
    collect_stdout (lines ++ [last]) = rustTrim last
    ∧ collect_stdout [] = ""
    ∧ spawn_and_run_script lines (ExitOutcome.exited (some 0))
        = some (collect_stdout lines) := by
  refine ⟨?_, rfl, ?_⟩
  · unfold collect_stdout
    rw [List.foldl_append]
    rfl
  · simp [spawn_and_run_script]

/-- C6 witness: with a progress line followed by "done ", the candidate
is the trimmed final line "done". -/
theorem collect_stdout_trimmed_last_line_witness :
    collect_stdout (["progress"] ++ ["done "]) = rustTrim "done "
    ∧ rustTrim "done " = "done" :=
  ⟨(collect_stdout_trimmed_last_line ["progress"] "done ").1, by decide⟩

/-- C7 counterexample: a first run stores a table under key "s"; a
second run for the same key completes with a scalar result "plain", yet
the result store still holds the first run's table for that key — the
previous run's value is kept, not replaced. -/
theorem result_store_keeps_previous_kind_cx :
    ((process_script_output none "plain" "s" none
        (process_script_output (some rawOk) "o1" "s" none emptyAppState
          emptyOutputs).1 emptyOutputs).1.script_results "s" = some "plain")
    ∧ ((process_script_output none "plain" "s" none
        (process_script_output (some rawOk) "o1" "s" none emptyAppState
          emptyOutputs).1 emptyOutputs).1.script_tables "s" = some tableOk)
    ∧ (some tableOk ≠ (none : Option TableData)) :=
  ⟨by decide, by decide, by decide⟩

/-- C7 (amended): each run that produces a result stores it under the
key "script_name" when no function was targeted, else
"script_name_function_name"; keys other than the run's key are
untouched, and at the run's key the new value of the run's kind replaces
the prior value of that kind unconditionally — but scalar results and
tables live in two separate maps, so a run producing a scalar leaves a
previously stored table for the key in place, and a run producing a
table leaves a previously stored scalar in place. -/
theorem process_script_output_key_replacement
    (parsed : Option RawTableData) (output script_name : String)
    (function_name : Option String) (st : AppState) (outs : ScriptOutputs) :
    result_key script_name none = script_name
    ∧ (∀ func_name, result_key script_name (some func_name)
        = script_name ++ "_" ++ func_name)
    ∧ (∀ k, k ≠ result_key script_name function_name →
        ((process_script_output parsed output script_name function_name st
            outs).1.script_results k = st.script_results k
          ∧ (process_script_output parsed output script_name function_name st
              outs).1.script_tables k = st.script_tables k))
    ∧ (parsed = none →
        ((process_script_output parsed output script_name function_name st
            outs).1.script_results (result_key script_name function_name)
            = some output
          ∧ (process_script_output parsed output script_name function_name st
              outs).1.script_tables = st.script_tables))
    ∧ (∀ raw e, parsed = some raw → raw.error = some e →
        ((process_script_output parsed output script_name function_name st
            outs).1.script_results (result_key script_name function_name)
            = some e
          ∧ (process_script_output parsed output script_name function_name st
              outs).1.script_tables = st.script_tables))
    ∧ (∀ raw, parsed = some raw → raw.error = none →
        ((process_script_output parsed output script_name function_name st
            outs).1.script_tables (result_key script_name function_name)
            = some (decodeTableData raw)
          ∧ (process_script_output parsed output script_name function_name st
              outs).1.script_results = st.script_results)) := by
  refine ⟨rfl, fun _ => rfl, ?_, ?_, ?_, ?_⟩
  · intro k hk
    cases parsed with
    | none => constructor <;> simp [process_script_output, hk]
    | some raw =>
        cases hre : raw.error with
        | none =>
            constructor <;> simp [process_script_output, decodeTableData, hre, hk]
        | some e =>
            constructor <;> simp [process_script_output, decodeTableData, hre, hk]
  · intro hp
    subst hp
    constructor <;> simp [process_script_output]
  · intro raw e hp herr
    subst hp
    constructor <;> simp [process_script_output, decodeTableData, herr]
  · intro raw hp herr
    subst hp
    constructor <;> simp [process_script_output, decodeTableData, herr]

/-- C7 witness: a run targeting function "func" of script "script"
stores its scalar output under key "script_func". -/
theorem process_script_output_key_replacement_witness :
    result_key "script" (some "func") = "script_func"
    ∧ (process_script_output none "out" "script" (some "func") emptyAppState
        emptyOutputs).1.script_results "script_func" = some "out" :=
  ⟨((process_script_output_key_replacement none "out" "script" (some "func")
      emptyAppState emptyOutputs).2.1 "func").trans rfl,
   ((process_script_output_key_replacement none "out" "script" (some "func")
      emptyAppState emptyOutputs).2.2.2.1 rfl).1⟩

end Connect
